import Mathlib

/-!
Verification of the admission-control and caching core of the null-rpc
JSON-RPC proxy.  The definitions below are a shallow embedding of the
TypeScript source:

* `src/services/cache/cache.ts` — cache TTL classification (`getCacheTtl`,
  `isSpecificBlock`) and cache-key derivation (`calculateCacheKey`, which
  SHA-256-hashes a normalized body and namespaces the key by chain);
* `src/objects/session.ts` — the per-user rate-limiting actor
  (`checkLimit`, `loadState`, `refillTokens`, `isNewMonth`);
* `src/constants/plans.ts` and the chain constants file — the plan table
  (`PLANS`), the node pool (`CHAIN_NODES`) and the MEV-protection relay map
  (`MEV_PROTECTION`);
* `src/handlers/rpc.ts` — round-robin node selection (`chooseNode`) and the
  protected-relay override in `handleRequest`.

JavaScript numbers are modelled by `ℚ` (token-bucket levels, params) with
`Option ℚ` (`none` = `Number.POSITIVE_INFINITY`) where the source stores
infinities, timestamps by `ℤ` milliseconds, and JSON values by `JValue`.
-/

set_option maxHeartbeats 1000000

namespace NullRpc

/-! ## JSON values

A JSON value as produced by `JSON.parse`.  `undefined` (absent values,
out-of-range indexing) is modelled by `Option JValue` at use sites. -/

inductive JValue where
  | str (s : String)
  | num (q : ℚ)
  | bool (b : Bool)
  | null
  | arr (xs : List JValue)
  | obj (fields : List (String × JValue))

/-- Truthiness of a JSON value in JavaScript (`false`, `0`, `""` and `null`
are falsy; objects and arrays are always truthy). -/
def jfalsy : JValue → Bool
  | .str s => s = ""
  | .num q => q = 0
  | .bool b => !b
  | .null => true
  | .arr _ => false
  | .obj _ => false

/-! ## Cache TTL classification (`cache.ts`) -/

/-- `VOLATILE_BLOCK_TAGS` from `cache.ts`: block tags that represent moving
targets. -/
def VOLATILE_BLOCK_TAGS : List String :=
  ["latest", "earliest", "pending", "safe", "finalized"]

/-- `tag.startsWith(pre)`, written structurally over the character list so
that it evaluates by kernel reduction (`String.startsWith` is loop-based). -/
def strStartsWith (s pre : String) : Bool := pre.data.isPrefixOf s.data

/-- `tag.toLowerCase()`, written structurally over the character list. -/
def strToLower (s : String) : String := String.mk (s.data.map Char.toLower)

/-- `isSpecificBlock` from `cache.ts`.  The argument is `Option JValue`
because the source applies it to possibly-`undefined` values
(`params[params.length - 1]`, absent object fields).  A non-string value
fails the source `typeof` string guard. -/
def isSpecificBlock : Option JValue → Bool
  | some (.str tag) =>
      strStartsWith tag "0x" && !VOLATILE_BLOCK_TAGS.contains (strToLower tag)
  | _ => false

/-- `getCacheTtl` from `cache.ts`: the cache TTL (seconds) for a method and
its parameter list; `0` means never cache.  `params[i]` is modelled by
`params.get? i` (`none` = `undefined`) and `params[params.length - 1]` by
`params.getLast?`. -/
def getCacheTtl (method : String) (params : List JValue) : ℕ :=
  match method with
  | "eth_chainId" | "net_version" | "web3_clientVersion" => 900
  | "eth_getTransactionByHash" | "eth_getRawTransactionByHash"
  | "eth_getTransactionReceipt" => 900
  | "eth_getBlockByHash" | "eth_getBlockReceipts"
  | "eth_getBlockTransactionCountByHash" | "eth_getUncleCountByBlockHash"
  | "eth_getTransactionByBlockHashAndIndex" => 900
  | "web3_sha3" => 900
  | "eth_getBlockByNumber" => if isSpecificBlock (params.get? 0) then 900 else 3
  | "eth_getBlockTransactionCountByNumber" | "eth_getUncleCountByBlockNumber"
  | "eth_getTransactionByBlockNumberAndIndex" =>
      if isSpecificBlock (params.get? 0) then 900 else 3
  | "eth_getBalance" | "eth_getCode" | "eth_getStorageAt" | "eth_getProof" =>
      if isSpecificBlock params.getLast? then 300 else 3
  | "eth_call" => if isSpecificBlock (params.get? 1) then 300 else 3
  | "eth_blockNumber" | "eth_gasPrice" | "eth_maxPriorityFeePerGas"
  | "eth_feeHistory" | "eth_blobBaseFee" => 3
  | "eth_estimateGas" => 3
  | "eth_syncing" => 5
  | "eth_mining" | "eth_hashrate" => 10
  | "net_listening" | "net_peerCount" => 10
  | "eth_getLogs" =>
      match params.get? 0 with
      | some (.obj fields) =>
          if isSpecificBlock (fields.lookup "fromBlock")
              && isSpecificBlock (fields.lookup "toBlock")
          then 300 else 3
      | some (.arr _) => 3
      | _ => 0
  | "eth_getTransactionCount" => 0
  | "eth_accounts" => 0
  | "eth_newFilter" | "eth_newBlockFilter" | "eth_newPendingTransactionFilter"
  | "eth_getFilterChanges" | "eth_getFilterLogs" | "eth_uninstallFilter" => 0
  | "eth_subscribe" | "eth_unsubscribe" => 0
  | "eth_sendRawTransaction" | "eth_sendTransaction" | "eth_signTransaction"
  | "eth_sign" => 0
  | "txpool_status" | "txpool_content" | "txpool_inspect"
  | "txpool_contentFrom" => 0
  | "debug_traceTransaction" | "debug_traceBlockByHash"
  | "debug_traceBlockByNumber" | "debug_getBadBlocks" | "trace_block"
  | "trace_transaction" | "trace_call" => 0
  | "eth_simulateV1" | "eth_callMany" => 0
  | _ => 0

/-- All method names that appear as a `case` label in `getCacheTtl`;
anything outside this list falls to the `default` branch. -/
def knownMethods : List String :=
  ["eth_chainId", "net_version", "web3_clientVersion",
   "eth_getTransactionByHash", "eth_getRawTransactionByHash",
   "eth_getTransactionReceipt",
   "eth_getBlockByHash", "eth_getBlockReceipts",
   "eth_getBlockTransactionCountByHash", "eth_getUncleCountByBlockHash",
   "eth_getTransactionByBlockHashAndIndex",
   "web3_sha3",
   "eth_getBlockByNumber",
   "eth_getBlockTransactionCountByNumber", "eth_getUncleCountByBlockNumber",
   "eth_getTransactionByBlockNumberAndIndex",
   "eth_getBalance", "eth_getCode", "eth_getStorageAt", "eth_getProof",
   "eth_call",
   "eth_blockNumber", "eth_gasPrice", "eth_maxPriorityFeePerGas",
   "eth_feeHistory", "eth_blobBaseFee",
   "eth_estimateGas",
   "eth_syncing",
   "eth_mining", "eth_hashrate",
   "net_listening", "net_peerCount",
   "eth_getLogs",
   "eth_getTransactionCount",
   "eth_accounts",
   "eth_newFilter", "eth_newBlockFilter", "eth_newPendingTransactionFilter",
   "eth_getFilterChanges", "eth_getFilterLogs", "eth_uninstallFilter",
   "eth_subscribe", "eth_unsubscribe",
   "eth_sendRawTransaction", "eth_sendTransaction", "eth_signTransaction",
   "eth_sign",
   "txpool_status", "txpool_content", "txpool_inspect", "txpool_contentFrom",
   "debug_traceTransaction", "debug_traceBlockByHash",
   "debug_traceBlockByNumber", "debug_getBadBlocks", "trace_block",
   "trace_transaction", "trace_call",
   "eth_simulateV1", "eth_callMany"]

/-- The methods `getCacheTtl` maps to TTL `0` by an explicit `case` label:
transaction sending/signing (state-mutating), the account-local nonce and
account list, stateful filter and subscription management, txpool reads,
debug/trace methods, and simulation. -/
def neverCacheMethods : List String :=
  ["eth_getTransactionCount", "eth_accounts",
   "eth_newFilter", "eth_newBlockFilter", "eth_newPendingTransactionFilter",
   "eth_getFilterChanges", "eth_getFilterLogs", "eth_uninstallFilter",
   "eth_subscribe", "eth_unsubscribe",
   "eth_sendRawTransaction", "eth_sendTransaction", "eth_signTransaction",
   "eth_sign",
   "txpool_status", "txpool_content", "txpool_inspect", "txpool_contentFrom",
   "debug_traceTransaction", "debug_traceBlockByHash",
   "debug_traceBlockByNumber", "debug_getBadBlocks", "trace_block",
   "trace_transaction", "trace_call",
   "eth_simulateV1", "eth_callMany"]

/-! ## JSON serialization (`JSON.stringify` of the normalized body)

`calculateCacheKey` serializes `{ method: body.method, params: body.params || [] }`
with `JSON.stringify` and hashes the UTF-8 bytes.  The serializer below
mirrors `JSON.stringify` on parsed JSON values; decimal float rendering and
`\uXXXX` control-character escapes are abstracted by a fixed deterministic
rendering, which is all the key-derivation properties depend on. -/

/-- Escape one character as inside a JSON string literal. -/
def escChar (c : Char) : List Char :=
  if c = Char.ofNat 34 then [Char.ofNat 92, Char.ofNat 34]
  else if c = Char.ofNat 92 then [Char.ofNat 92, Char.ofNat 92]
  else if c = Char.ofNat 10 then [Char.ofNat 92, 'n']
  else if c = Char.ofNat 13 then [Char.ofNat 92, 'r']
  else if c = Char.ofNat 9 then [Char.ofNat 92, 't']
  else [c]

/-- Escape a string as inside a JSON string literal. -/
def jescape (s : String) : String :=
  String.mk (s.data.foldr (fun c acc => escChar c ++ acc) [])

/-- Deterministic rendering of a JSON number. -/
def ratStr (q : ℚ) : String :=
  if q.den = 1 then toString q.num else toString q.num ++ "/" ++ toString q.den

/-- Join serialized elements with commas. -/
def commaJoin : List String → String
  | [] => ""
  | [x] => x
  | x :: y :: tl => x ++ "," ++ commaJoin (y :: tl)

/-- `JSON.stringify` on a parsed JSON value. -/
def jstringify : JValue → String
  | .str s => "\"" ++ jescape s ++ "\""
  | .num q => ratStr q
  | .bool b => cond b "true" "false"
  | .null => "null"
  | .arr xs =>
      "[" ++ commaJoin (xs.attach.map (fun x => jstringify x.1)) ++ "]"
  | .obj fs =>
      "\x7b" ++
        commaJoin (fs.attach.map
          (fun f => "\"" ++ jescape f.1.1 ++ "\":" ++ jstringify f.1.2)) ++
        "\x7d"
termination_by v => sizeOf v
decreasing_by
  · have hx := List.sizeOf_lt_of_mem x.2
    simp only [JValue.arr.sizeOf_spec]
    omega
  · have hx := List.sizeOf_lt_of_mem f.2
    have hy : sizeOf f.1.2 < sizeOf f.1 := by
      rcases f with ⟨⟨a, b⟩, hf⟩
      simp only [Prod.mk.sizeOf_spec]
      omega
    simp only [JValue.obj.sizeOf_spec]
    omega

/-! ## SHA-256 over natural-number bytes

`calculateCacheKey` digests the bytes with the platform SHA-256.  The
standard algorithm is embedded over `ℕ` with explicit `% 2 ^ 32`
reductions; a digest is a list of 32 bytes. -/

/-- Rotate a 32-bit word right by `k`. -/
def rotr32 (k n : ℕ) : ℕ := (n >>> k) ||| ((n % 2 ^ k) <<< (32 - k))

/-- SHA-256 Σ₀. -/
def bigSigma0 (a : ℕ) : ℕ := rotr32 2 a ^^^ rotr32 13 a ^^^ rotr32 22 a

/-- SHA-256 Σ₁. -/
def bigSigma1 (e : ℕ) : ℕ := rotr32 6 e ^^^ rotr32 11 e ^^^ rotr32 25 e

/-- SHA-256 σ₀. -/
def smallSigma0 (w : ℕ) : ℕ := rotr32 7 w ^^^ rotr32 18 w ^^^ (w >>> 3)

/-- SHA-256 σ₁. -/
def smallSigma1 (w : ℕ) : ℕ := rotr32 17 w ^^^ rotr32 19 w ^^^ (w >>> 10)

/-- SHA-256 `Ch`. -/
def shaCh (e f g : ℕ) : ℕ := (e &&& f) ^^^ ((e ^^^ 0xffffffff) &&& g)

/-- SHA-256 `Maj`. -/
def shaMaj (a b c : ℕ) : ℕ := (a &&& b) ^^^ (a &&& c) ^^^ (b &&& c)

/-- SHA-256 round constants (decimal rendering of the standard table). -/
def shaK : Array ℕ := #[
  1116352408, 1899447441, 3049323471, 3921009573,
  961987163, 1508970993, 2453635748, 2870763221,
  3624381080, 310598401, 607225278, 1426881987,
  1925078388, 2162078206, 2614888103, 3248222580,
  3835390401, 4022224774, 264347078, 604807628,
  770255983, 1249150122, 1555081692, 1996064986,
  2554220882, 2821834349, 2952996808, 3210313671,
  3336571891, 3584528711, 113926993, 338241895,
  666307205, 773529912, 1294757372, 1396182291,
  1695183700, 1986661051, 2177026350, 2456956037,
  2730485921, 2820302411, 3259730800, 3345764771,
  3516065817, 3600352804, 4094571909, 275423344,
  430227734, 506948616, 659060556, 883997877,
  958139571, 1322822218, 1537002063, 1747873779,
  1955562222, 2024104815, 2227730452, 2361852424,
  2428436474, 2756734187, 3204031479, 3329325298]

/-- SHA-256 initial hash state `(a, b, c, d, e, f, g, h)` (decimal
rendering of the standard constants). -/
def shaInit : ℕ × ℕ × ℕ × ℕ × ℕ × ℕ × ℕ × ℕ :=
  (1779033703, 3144134277, 1013904242, 2773480762,
   1359893119, 2600822924, 528734635, 1541459225)

/-- Pad a message (SHA-256 Merkle–Damgård padding): append `0x80`, zeros to
56 mod 64 bytes, then the bit length as 8 big-endian bytes. -/
def shaPad (msg : List ℕ) : List ℕ :=
  let ml := 8 * msg.length
  let zeros := (119 - (msg.length % 64)) % 64
  msg ++ [0x80] ++ List.replicate zeros 0 ++
    [ml / 2 ^ 56 % 256, ml / 2 ^ 48 % 256, ml / 2 ^ 40 % 256,
     ml / 2 ^ 32 % 256, ml / 2 ^ 24 % 256, ml / 2 ^ 16 % 256,
     ml / 2 ^ 8 % 256, ml % 256]

/-- Split a byte list into 64-byte blocks. -/
def chunk64 (l : List ℕ) : List (List ℕ) :=
  if hl : l = [] then [] else l.take 64 :: chunk64 (l.drop 64)
termination_by l.length
decreasing_by
  simp only [List.length_drop]
  have : 0 < l.length := List.length_pos.mpr hl
  omega

/-- The 16 big-endian 32-bit words of a 64-byte block. -/
def blockWords (b : List ℕ) : Array ℕ :=
  (Array.range 16).map (fun i =>
    b.getD (4 * i) 0 * 2 ^ 24 + b.getD (4 * i + 1) 0 * 2 ^ 16 +
      b.getD (4 * i + 2) 0 * 2 ^ 8 + b.getD (4 * i + 3) 0)

/-- Extend 16 message-schedule words to 64. -/
def extendWords (w : Array ℕ) : Array ℕ :=
  (List.range 48).foldl
    (fun w i =>
      w.push ((smallSigma1 (w.getD (i + 14) 0) + w.getD (i + 9) 0 +
        smallSigma0 (w.getD (i + 1) 0) + w.getD i 0) % 2 ^ 32))
    w

/-- One SHA-256 compression round. -/
def shaRound (w : Array ℕ) (st : ℕ × ℕ × ℕ × ℕ × ℕ × ℕ × ℕ × ℕ) (i : ℕ) :
    ℕ × ℕ × ℕ × ℕ × ℕ × ℕ × ℕ × ℕ :=
  let (a, b, c, d, e, f, g, h) := st
  let t1 := (h + bigSigma1 e + shaCh e f g + shaK.getD i 0 + w.getD i 0) % 2 ^ 32
  let t2 := (bigSigma0 a + shaMaj a b c) % 2 ^ 32
  ((t1 + t2) % 2 ^ 32, a, b, c, (d + t1) % 2 ^ 32, e, f, g)

/-- Compress one 64-byte block into the running hash state. -/
def shaCompress (st : ℕ × ℕ × ℕ × ℕ × ℕ × ℕ × ℕ × ℕ) (block : List ℕ) :
    ℕ × ℕ × ℕ × ℕ × ℕ × ℕ × ℕ × ℕ :=
  let w := extendWords (blockWords block)
  let (a, b, c, d, e, f, g, h) := (List.range 64).foldl (shaRound w) st
  let (a0, b0, c0, d0, e0, f0, g0, h0) := st
  ((a + a0) % 2 ^ 32, (b + b0) % 2 ^ 32, (c + c0) % 2 ^ 32, (d + d0) % 2 ^ 32,
   (e + e0) % 2 ^ 32, (f + f0) % 2 ^ 32, (g + g0) % 2 ^ 32, (h + h0) % 2 ^ 32)

/-- Big-endian bytes of a 32-bit word. -/
def word4 (w : ℕ) : List ℕ :=
  [w / 2 ^ 24 % 256, w / 2 ^ 16 % 256, w / 2 ^ 8 % 256, w % 256]

/-- SHA-256 digest (32 bytes) of a byte message. -/
def sha256 (msg : List ℕ) : List ℕ :=
  let st := (chunk64 (shaPad msg)).foldl shaCompress shaInit
  let (a, b, c, d, e, f, g, h) := st
  word4 a ++ word4 b ++ word4 c ++ word4 d ++
    word4 e ++ word4 f ++ word4 g ++ word4 h

/-- The UTF-8 bytes of a string (`TextEncoder().encode`). -/
def utf8Bytes (s : String) : List ℕ :=
  s.toUTF8.toList.map (fun b => b.toNat)

/-- Lowercase hex digit for `n < 16`. -/
def hexDigit (n : ℕ) : Char :=
  "0123456789abcdef".data.getD n (Char.ofNat 48)

/-- Two lowercase hex characters of a byte
(`toString(16)` padded to width 2 with zeros). -/
def byteHex (b : ℕ) : List Char := [hexDigit (b / 16 % 16), hexDigit (b % 16)]

/-- Lowercase hex encoding of the SHA-256 digest of a string. -/
def sha256Hex (s : String) : String :=
  String.mk ((sha256 (utf8Bytes s)).map byteHex).flatten

/-! ## Cache-key derivation (`calculateCacheKey`) -/

/-- A parsed JSON-RPC request body: `id` and `jsonrpc` are the fields the
normalization drops; `method` is a string (as typed in `rpc.ts`); `params`
is `none` when the field is absent. -/
structure RpcBody where
  id : Option JValue := none
  jsonrpc : Option String := none
  method : String
  params : Option JValue := none

/-- `body.params || []`: absent or falsy params are replaced by `[]`. -/
def normParams (p : Option JValue) : JValue :=
  match p with
  | none => .arr []
  | some v => if jfalsy v then .arr [] else v

/-- `JSON.stringify({ method: body.method, params: body.params || [] })`. -/
def serializeBody (b : RpcBody) : String :=
  "\x7b\"method\":\"" ++ jescape b.method ++ "\",\"params\":" ++
    jstringify (normParams b.params) ++ "\x7d"

/-- `calculateCacheKey` from `cache.ts`: fake-URL cache key embedding the
chain as a namespace and the SHA-256 hex digest of the normalized body. -/
def calculateCacheKey (chain : String) (b : RpcBody) : String :=
  "https://cache.null-rpc.internal/" ++ chain ++ "/" ++
    sha256Hex (serializeBody b)

/-! ## Plans (`plans.ts`)

JavaScript numbers that may be `Number.POSITIVE_INFINITY` are modelled by
`Option`: `none` is infinity.  `QI` is such an extended rational (the
token-bucket level and the per-second rate), and monthly caps are
`Option ℕ`. -/

/-- Extended rational: `none` models `Number.POSITIVE_INFINITY`. -/
abbrev QI := Option ℚ

/-- `PlanType` from `types/plans`. -/
inductive PlanType where
  | business | enterprise | hobbyist | scaling
deriving DecidableEq

/-- The plan identifier string (template `${plan}` in `session.ts`). -/
def planName : PlanType → String
  | .business => "business"
  | .enterprise => "enterprise"
  | .hobbyist => "hobbyist"
  | .scaling => "scaling"

/-- `PlanConfig` from the types: monthly cap and sustained rate. -/
structure PlanConfig where
  requestsPerMonth : Option ℕ
  requestsPerSecond : QI
deriving DecidableEq

/-- `PLANS` from `plans.ts` (`enterprise` has both fields
`Number.POSITIVE_INFINITY`). -/
def PLANS : PlanType → PlanConfig
  | .business => ⟨some 250000000, some 500⟩
  | .enterprise => ⟨none, none⟩
  | .hobbyist => ⟨some 100000, some 10⟩
  | .scaling => ⟨some 50000000, some 100⟩

/-- `current >= cap` in JavaScript: false when the cap is infinity. -/
def capReached (cap : Option ℕ) (current : ℕ) : Bool :=
  match cap with
  | none => false
  | some c => c ≤ current

/-- `cap - current` in JavaScript (infinity minus a finite count is
infinity).  Only evaluated when `current ≤ cap`. -/
def capSub (cap : Option ℕ) (current : ℕ) : Option ℕ :=
  match cap with
  | none => none
  | some c => some (c - current)

/-- `tokens < 1` in JavaScript: false for infinity. -/
def QI.lt1 : QI → Bool
  | none => false
  | some q => q < 1

/-- `tokens -= 1` in JavaScript: infinity stays infinity. -/
def QI.sub1 : QI → QI
  | none => none
  | some q => some (q - 1)

/-! ## Calendar months (`isNewMonth` via `Date#getMonth`/`getFullYear`)

`new Date(ms)` decomposes a millisecond timestamp into the proleptic
Gregorian calendar (the worker runtime is UTC).  `civilOf` is the standard
days-to-civil-date conversion. -/

/-- `(year, month)` of a millisecond epoch timestamp, proleptic Gregorian,
with months 1–12 (only equality of the pair is ever used, so the 0-based
offset of `getMonth` is immaterial). -/
def civilOf (ms : ℤ) : ℤ × ℕ :=
  let days := Int.fdiv ms 86400000
  let z := days + 719468
  let era := Int.fdiv z 146097
  let doe := (z - era * 146097).toNat
  let yoe := (doe - doe / 1461 + doe / 36524 - doe / 146096) / 365
  let doy := doe - (365 * yoe + yoe / 4 - yoe / 100)
  let mp := (5 * doy + 2) / 153
  let m := if mp < 10 then mp + 3 else mp - 9
  ((yoe : ℤ) + era * 400 + (if m ≤ 2 then 1 else 0), m)

/-- `isNewMonth` from `session.ts`: the stored reset timestamp and now fall
in different calendar months or different years. -/
def isNewMonth (lastTimestamp now : ℤ) : Bool :=
  (civilOf lastTimestamp).2 ≠ (civilOf now).2 ||
    (civilOf lastTimestamp).1 ≠ (civilOf now).1

/-! ## The user-session actor (`session.ts`) -/

/-- `UserRecord` from the types (the persisted tenant record). -/
structure UserRecord where
  token : String
  plan : PlanType
  created_at : ℤ
  current_month_requests : ℕ
  month_reset_at : ℤ
  address : String
deriving DecidableEq

/-- `SessionState` from the types (actor-local state). -/
structure SessionState where
  tokens : QI
  lastRefill : ℤ
  record : UserRecord
  dirty : Bool
deriving DecidableEq

/-- Denial reasons returned by `checkLimit` (`user_not_found` is what the
code returns for a missing record; the spec names it `tenant_not_found`). -/
inductive CheckReason where
  | user_not_found | monthly_limit | rate_limit
deriving DecidableEq

/-- `RateLimitResult` (the `remaining` number may be infinite for the
enterprise plan, hence `Option ℕ`). -/
structure RateLimitResult where
  allowed : Bool
  reason : Option CheckReason
  remaining : Option ℕ
deriving DecidableEq

/-- `refillTokens` from `session.ts`: elapsed seconds since the last refill
(`elapsed = (now - lastRefill) / 1000`, written inline) times the rate,
capped at `maxTokens = rps * 1.5`; no-op when no time has elapsed. -/
def refillTokens (s : SessionState) (rps : QI) (now : ℤ) : SessionState :=
  if ((now - s.lastRefill : ℤ) : ℚ) / 1000 ≤ 0 then s
  else
    match rps, s.tokens with
    | none, _ => { s with tokens := none, lastRefill := now }
    | some r, none => { s with tokens := some (r * (3 / 2)), lastRefill := now }
    | some r, some t =>
        { s with
            tokens := some (min (r * (3 / 2))
              (t + ((now - s.lastRefill : ℤ) : ℚ) / 1000 * r)),
            lastRefill := now }

/-- Step 1 of `checkLimit`: the monthly rollover. -/
def rolloverStep (s : SessionState) (now : ℤ) : SessionState :=
  if isNewMonth s.record.month_reset_at now then
    { s with record := { s.record with current_month_requests := 0,
                                       month_reset_at := now },
             dirty := true }
  else s

/-- Steps 1–3 of `checkLimit`: the session after the monthly rollover and
the token-bucket refill (the source mutates `this.session` in place; here
the two stages are composed). -/
def afterRefill (s : SessionState) (now : ℤ) : SessionState :=
  refillTokens (rolloverStep s now) (PLANS s.record.plan).requestsPerSecond now

/-- `checkLimit` from `session.ts` on a loaded session, as a pure function
of the session state and `Date.now()`: monthly rollover, monthly-quota
check, token-bucket refill, bucket check, consume.  `flushState` only
persists the record and clears `dirty` asynchronously (`state.waitUntil`),
so the state returned here is the actor state at decision time. -/
def checkLimit (s : SessionState) (now : ℤ) : RateLimitResult × SessionState :=
  if capReached (PLANS s.record.plan).requestsPerMonth
      (rolloverStep s now).record.current_month_requests then
    (⟨false, some .monthly_limit, some 0⟩, rolloverStep s now)
  else if QI.lt1 (afterRefill s now).tokens then
    (⟨false, some .rate_limit, some 0⟩, afterRefill s now)
  else
    (⟨true, none, capSub (PLANS s.record.plan).requestsPerMonth
        ((afterRefill s now).record.current_month_requests + 1)⟩,
     { afterRefill s now with
         tokens := QI.sub1 (afterRefill s now).tokens,
         record := { (afterRefill s now).record with
           current_month_requests :=
             (afterRefill s now).record.current_month_requests + 1 },
         dirty := true })

/-- `planMap` from the auto-seed logic in `loadState`. -/
def planMap (token : String) : Option PlanType :=
  if token = "user_business" then some .business
  else if token = "user_enterprise" then some .enterprise
  else if token = "user_hobbyist" then some .hobbyist
  else if token = "user_scaling" then some .scaling
  else none

/-- `loadState` from `session.ts`: load the record from the store (modelled
as a function `String → Option UserRecord`); if absent, the auto-seed logic
creates a fresh record for the four `user_*` plan tokens; otherwise the
session stays `null`. -/
def loadState (db : String → Option UserRecord) (token : String) (now : ℤ) :
    Option SessionState :=
  match db token with
  | some r => some ⟨(PLANS r.plan).requestsPerSecond, now, r, false⟩
  | none =>
    if strStartsWith token "user_" then
      match planMap token with
      | some plan =>
          some ⟨(PLANS plan).requestsPerSecond, now,
                ⟨token, plan, now, 0, now, "0x_auto_" ++ planName plan⟩, false⟩
      | none => none
    else none

/-- `checkLimit` on a possibly-absent session (`this.session === null` after
initialization yields the `user_not_found` denial). -/
def checkLimitOpt (s : Option SessionState) (now : ℤ) :
    RateLimitResult × Option SessionState :=
  match s with
  | none => (⟨false, some .user_not_found, some 0⟩, none)
  | some st => ((checkLimit st now).1, some (checkLimit st now).2)

/-- The first `checkLimit` call on a fresh actor: `loadState` then the
check. -/
def checkLimitFirst (db : String → Option UserRecord) (token : String)
    (now : ℤ) : RateLimitResult × Option SessionState :=
  checkLimitOpt (loadState db token now) now

/-- `n` consecutive `checkLimit` calls at the same instant `t`. -/
def runN (s : SessionState) (t : ℤ) : ℕ → SessionState
  | 0 => s
  | n + 1 => (checkLimit (runN s t n) t).2

/-- Fold `checkLimit` over a list of call timestamps. -/
def stepTimes (s : SessionState) (ts : List ℤ) : SessionState :=
  ts.foldl (fun st t => (checkLimit st t).2) s

/-! ## Dispatcher (`rpc.ts` and the chain constants) -/

/-- `CHAIN_NODES` from the chain constants file. -/
def CHAIN_NODES : String → List String
  | "eth" =>
    ["https://eth.llamarpc.com",
     "https://eth.blockrazor.xyz",
     "https://eth-mainnet.nodereal.io/v1/1659dfb40aa24bbb8153a677b98064d7",
     "https://1rpc.io/eth",
     "https://rpc.mevblocker.io",
     "https://rpc.flashbots.net",
     "https://cloudflare-eth.com",
     "https://singapore.rpc.blxrbdn.com",
     "https://ethereum-rpc.publicnode.com",
     "https://singapore.rpc.blxrbdn.com",
     "https://eth.rpc.blxrbdn.com",
     "https://eth-mainnet.public.blastapi.io",
     "https://eth-mainnet.rpcfast.com?api_key=xbhWBI1Wkguk8SNMu1bvvLurPGLXmgwYeC4S6g2H7WdwFigZSmPWVZRxrskEQwIf",
     "https://eth.meowrpc.com",
     "https://ethereum-mainnet.gateway.tatum.io"]
  | _ => []

/-- `MEV_PROTECTION` from the chain constants file. -/
def MEV_PROTECTION : String → Option String
  | "eth" => some "https://rpc.mevblocker.io/fullprivacy"
  | _ => none

/-- `chooseNode` from `rpc.ts`: true round-robin; returns the chosen URL and
the incremented shared counter. -/
def chooseNode (nodes : List String) (rr : ℕ) : String × ℕ :=
  (nodes.getD (rr % nodes.length) "", rr + 1)

/-- The upstream-selection logic of `handleRequest` (`rpc.ts` lines
115–125): `eth_sendRawTransaction` on a chain with a configured MEV relay
bypasses round-robin; everything else round-robins. -/
def selectUpstream (chain method : String) (nodes : List String) (rr : ℕ) :
    String × ℕ :=
  match MEV_PROTECTION chain with
  | some mev => if method = "eth_sendRawTransaction" then (mev, rr)
                else chooseNode nodes rr
  | none => chooseNode nodes rr

/-- `n` consecutive `chooseNode` selections threading the shared counter. -/
def chooseRun (nodes : List String) (rr : ℕ) : ℕ → List String
  | 0 => []
  | n + 1 => (chooseNode nodes rr).1 :: chooseRun nodes (chooseNode nodes rr).2 n

/-! ## Helper lemmas: cache classification -/

/-- Equation of `getCacheTtl` on the balance/code/storage/proof group. -/
theorem getCacheTtl_accountGroup (m : String)
    (hm : m ∈ ["eth_getBalance", "eth_getCode", "eth_getStorageAt",
               "eth_getProof"]) (params : List JValue) :
    getCacheTtl m params = if isSpecificBlock params.getLast? then 300 else 3 := by
  fin_cases hm <;> rfl

/-- The last element of a two-element list. -/
theorem getLast?_pair (a b : JValue) : ([a, b] : List JValue).getLast? = some b := rfl

/-! ## C4 -/

/-- C4: for a dispatched `eth_sendRawTransaction` call on a chain with a
configured protected relay, the dispatcher selects the relay URL as the
upstream, for every value of the round-robin counter. -/
theorem C4_protected_relay_override (chain : String) (nodes : List String)
    (rr : ℕ) (relay : String) (hmev : MEV_PROTECTION chain = some relay) :
    selectUpstream chain "eth_sendRawTransaction" nodes rr = (relay, rr) := by
  unfold selectUpstream
  rw [hmev]
  simp

/-- Witness for C4 at the concrete `eth` relay configuration. -/
theorem C4_protected_relay_override_witness :
    MEV_PROTECTION "eth" = some "https://rpc.mevblocker.io/fullprivacy" ∧
    selectUpstream "eth" "eth_sendRawTransaction" (CHAIN_NODES "eth") 7 =
      ("https://rpc.mevblocker.io/fullprivacy", 7) :=
  ⟨rfl, C4_protected_relay_override "eth" (CHAIN_NODES "eth") 7 _ rfl⟩

/-! ## C5 -/

/-- C5: `classify("eth_getBalance", [addr, tag])` yields TTL 300 (at least
the 60-second medium threshold) when `tag` is a fixed historical pointer
(`0x…` and not a reserved moving tag), and the short volatile TTL 3 when
`tag` is a moving tag such as `latest`. -/
theorem C5_fixed_vs_moving_block_tag :
    (∀ (addr : JValue) (tag : String),
        isSpecificBlock (some (.str tag)) = true →
        getCacheTtl "eth_getBalance" [addr, .str tag] = 300 ∧
        60 ≤ getCacheTtl "eth_getBalance" [addr, .str tag]) ∧
    (∀ addr : JValue, getCacheTtl "eth_getBalance" [addr, .str "latest"] = 3) ∧
    (∀ (addr : JValue) (tag : String), tag ∈ VOLATILE_BLOCK_TAGS →
        getCacheTtl "eth_getBalance" [addr, .str tag] = 3) := by
  refine ⟨fun addr tag h => ?_, fun addr => ?_, fun addr tag h => ?_⟩
  · have e := getCacheTtl_accountGroup "eth_getBalance" (by simp) [addr, .str tag]
    rw [getLast?_pair, h] at e
    simp only [if_true] at e
    exact ⟨e, by rw [e]; norm_num⟩
  · have e := getCacheTtl_accountGroup "eth_getBalance" (by simp) [addr, .str "latest"]
    rw [getLast?_pair] at e
    rw [show isSpecificBlock (some (.str "latest")) = false by decide] at e
    simpa using e
  · have e := getCacheTtl_accountGroup "eth_getBalance" (by simp) [addr, .str tag]
    rw [getLast?_pair] at e
    have hsb : isSpecificBlock (some (.str tag)) = false := by
      fin_cases h <;> decide
    rw [hsb] at e
    simpa using e

/-- Witness for C5 at `tag = "0x10d4f"`. -/
theorem C5_fixed_vs_moving_block_tag_witness :
    isSpecificBlock (some (.str "0x10d4f")) = true ∧
    getCacheTtl "eth_getBalance" [.str "0xabc", .str "0x10d4f"] = 300 :=
  ⟨by decide, (C5_fixed_vs_moving_block_tag.1 (.str "0xabc") "0x10d4f" (by decide)).1⟩

/-! ## C10 -/

/-- C10: on the block-tag-dependent account lookups (`eth_getBalance`,
`eth_getCode`, `eth_getStorageAt`, `eth_getProof`), `classify` inspects only
the last element of `params`: TTL 300 whenever that element is a string
starting with `0x` that is not case-insensitively a reserved moving tag
(including the account address itself when the block parameter is omitted),
and TTL 3 otherwise, including for empty `params`. -/
theorem C10_account_lookup_last_param :
    (∀ m ∈ ["eth_getBalance", "eth_getCode", "eth_getStorageAt",
            "eth_getProof"],
      (∀ ps1 ps2 : List JValue, ps1.getLast? = ps2.getLast? →
          getCacheTtl m ps1 = getCacheTtl m ps2) ∧
      (∀ (ps : List JValue) (s : String), ps.getLast? = some (.str s) →
          strStartsWith s "0x" = true →
          VOLATILE_BLOCK_TAGS.contains (strToLower s) = false →
          getCacheTtl m ps = 300) ∧
      (∀ ps : List JValue, isSpecificBlock ps.getLast? = false →
          getCacheTtl m ps = 3) ∧
      getCacheTtl m [] = 3) ∧
    getCacheTtl "eth_getBalance"
      [.str "0xd8dA6BF26964aF9D7eEd9e03E53415D37aA96045"] = 300 := by
  refine ⟨fun m hm => ⟨fun ps1 ps2 h => ?_, fun ps s hlast h0x hvol => ?_,
    fun ps h => ?_, ?_⟩, by decide⟩
  · rw [getCacheTtl_accountGroup m hm, getCacheTtl_accountGroup m hm, h]
  · rw [getCacheTtl_accountGroup m hm, hlast]
    simp [isSpecificBlock, h0x]
    simpa using hvol
  · rw [getCacheTtl_accountGroup m hm, h]
    simp
  · rw [getCacheTtl_accountGroup m hm]
    rfl

/-- Witness for C10: code lookup with an omitted block parameter falls back
to the address string, which reads as a fixed pointer. -/
theorem C10_account_lookup_last_param_witness :
    ("eth_getCode" ∈ ["eth_getBalance", "eth_getCode", "eth_getStorageAt",
        "eth_getProof"]) ∧
    getCacheTtl "eth_getCode" [.str "0xc02aaa39b223fe8d0a0e5c4f27ead9083c756cc2"] = 300 :=
  ⟨by decide,
    (C10_account_lookup_last_param.1 "eth_getCode" (by decide)).2.1
      [.str "0xc02aaa39b223fe8d0a0e5c4f27ead9083c756cc2"]
      "0xc02aaa39b223fe8d0a0e5c4f27ead9083c756cc2" rfl (by decide) (by decide)⟩

/-! ## C7 -/

/-- `getCacheTtl` on a method outside the classification table falls to the
`default` branch. -/
theorem getCacheTtl_default (m : String) (hm : m ∉ knownMethods)
    (params : List JValue) : getCacheTtl m params = 0 := by
  unfold getCacheTtl
  split
  all_goals first
    | rfl
    | exact absurd (by decide) hm

/-- C7: `classify` returns 0 (never cache) for the state-mutating,
nonce/account, filter/subscription, txpool, debug/trace and simulation
methods listed in the table, and for every method not in the table; in
particular for `eth_getTransactionCount` and `eth_sendRawTransaction`. -/
theorem C7_never_cache :
    (∀ m ∈ neverCacheMethods, ∀ params : List JValue, getCacheTtl m params = 0) ∧
    (∀ m ∉ knownMethods, ∀ params : List JValue, getCacheTtl m params = 0) ∧
    (∀ addr : JValue,
        getCacheTtl "eth_getTransactionCount" [addr, .str "latest"] = 0) ∧
    (∀ raw : JValue, getCacheTtl "eth_sendRawTransaction" [raw] = 0) := by
  refine ⟨fun m hm params => ?_, fun m hm params => getCacheTtl_default m hm params,
    fun _ => rfl, fun _ => rfl⟩
  fin_cases hm <;> rfl

/-- Witness for C7 on a member of the never-cache set and on an unknown
method. -/
theorem C7_never_cache_witness :
    ("eth_subscribe" ∈ neverCacheMethods) ∧
    ("eth_madeUpMethod" ∉ knownMethods) ∧
    getCacheTtl "eth_subscribe" [] = 0 ∧
    getCacheTtl "eth_madeUpMethod" [.str "x"] = 0 :=
  ⟨by decide, by decide,
    C7_never_cache.1 "eth_subscribe" (by decide) [],
    C7_never_cache.2.1 "eth_madeUpMethod" (by decide) [.str "x"]⟩

/-! ## Evaluation lemmas for `checkLimit` -/

/-- `refillTokens` never touches the tenant record. -/
theorem refillTokens_record (s : SessionState) (rps : QI) (now : ℤ) :
    (refillTokens s rps now).record = s.record := by
  unfold refillTokens
  split
  · rfl
  · split <;> rfl

/-- Refilling at the last-refill instant is a no-op (zero elapsed time). -/
theorem refillTokens_self (s : SessionState) (rps : QI) :
    refillTokens s rps s.lastRefill = s := by
  unfold refillTokens
  rw [if_pos]
  rw [sub_self]
  norm_num

/-- `refillTokens` on a literal session at its own last-refill instant. -/
theorem refillTokens_lit_self (tk : QI) (t0 : ℤ) (r : UserRecord) (db : Bool)
    (rps : QI) : refillTokens ⟨tk, t0, r, db⟩ rps t0 = ⟨tk, t0, r, db⟩ :=
  refillTokens_self ⟨tk, t0, r, db⟩ rps

/-- The rollover is a no-op when the calendar month has not changed. -/
theorem rolloverStep_id (s : SessionState) (now : ℤ)
    (hnm : isNewMonth s.record.month_reset_at now = false) :
    rolloverStep s now = s := by
  unfold rolloverStep
  rw [hnm]
  rfl

/-- `checkLimit`, evaluated on the admitted path: no rollover, quota not
reached, and the refilled session `s2` holds at least one token. -/
theorem checkLimit_eval_allowed (s : SessionState) (now : ℤ)
    (C : Option ℕ) (Rq : QI) (s2 : SessionState)
    (hC : (PLANS s.record.plan).requestsPerMonth = C)
    (hRq : (PLANS s.record.plan).requestsPerSecond = Rq)
    (hnm : isNewMonth s.record.month_reset_at now = false)
    (hcap : capReached C s.record.current_month_requests = false)
    (hs2 : refillTokens s Rq now = s2)
    (hlt : QI.lt1 s2.tokens = false) :
    checkLimit s now =
      (⟨true, none, capSub C (s.record.current_month_requests + 1)⟩,
       { s2 with
           tokens := QI.sub1 s2.tokens,
           record := { s.record with
             current_month_requests := s.record.current_month_requests + 1 },
           dirty := true }) := by
  have hrec : s2.record = s.record := by
    rw [← hs2, refillTokens_record]
  unfold checkLimit afterRefill
  rw [rolloverStep_id s now hnm, hC, hRq, hs2, hcap, hlt, hrec]
  rfl

/-- `checkLimit`, evaluated on the bucket-denied path: no rollover, quota
not reached, the refilled session `s2` holds less than one token. -/
theorem checkLimit_eval_rate (s : SessionState) (now : ℤ)
    (C : Option ℕ) (Rq : QI) (s2 : SessionState)
    (hC : (PLANS s.record.plan).requestsPerMonth = C)
    (hRq : (PLANS s.record.plan).requestsPerSecond = Rq)
    (hnm : isNewMonth s.record.month_reset_at now = false)
    (hcap : capReached C s.record.current_month_requests = false)
    (hs2 : refillTokens s Rq now = s2)
    (hlt : QI.lt1 s2.tokens = true) :
    checkLimit s now = (⟨false, some .rate_limit, some 0⟩, s2) := by
  unfold checkLimit afterRefill
  rw [rolloverStep_id s now hnm, hC, hRq, hs2, hcap, hlt]
  rfl

/-- `checkLimitOpt` on a present session delegates to `checkLimit`. -/
theorem checkLimitOpt_some (st : SessionState) (now : ℤ) :
    checkLimitOpt (some st) now =
      ((checkLimit st now).1, some (checkLimit st now).2) := rfl

/-! ## C1 -/

/-- Counterexample to C1 as stated: the token `user_hobbyist` has no
persisted record (the store returns nothing), yet the first `checkLimit`
auto-seeds a hobbyist record and admits the call with quota remaining —
the opposite of a terminal fail-closed denial. -/
theorem C1_counterexample :
    (checkLimitFirst (fun _ => none) "user_hobbyist" 1706745600000).1 =
      ⟨true, none, some 99999⟩ ∧
    (checkLimitFirst (fun _ => none) "user_hobbyist" 1706745600000).2 ≠ none := by
  have hload : loadState (fun _ => none) "user_hobbyist" 1706745600000 =
      some ⟨some 10, 1706745600000,
        ⟨"user_hobbyist", .hobbyist, 1706745600000, 0, 1706745600000,
          "0x_auto_" ++ planName .hobbyist⟩, false⟩ := rfl
  have hc := checkLimit_eval_allowed
    ⟨some 10, 1706745600000,
      ⟨"user_hobbyist", .hobbyist, 1706745600000, 0, 1706745600000,
        "0x_auto_" ++ planName .hobbyist⟩, false⟩ 1706745600000
    (some 100000) (some 10)
    ⟨some 10, 1706745600000,
      ⟨"user_hobbyist", .hobbyist, 1706745600000, 0, 1706745600000,
        "0x_auto_" ++ planName .hobbyist⟩, false⟩
    rfl rfl (by decide) (by decide)
    (refillTokens_lit_self _ _ _ _ _) (by decide)
  unfold checkLimitFirst
  rw [hload, checkLimitOpt_some, hc]
  exact ⟨rfl, by simp⟩

/-- C1 (amended): for every token with no persisted record that is not one
of the four auto-seed tokens, the first `checkLimit` returns
`allowed = false` with the not-found reason (`user_not_found` in the code;
the spec calls it `tenant_not_found`), leaves the session absent (so no
counter exists to mutate and no quota is granted), and every later call on
the absent session is denied the same way — the state is terminal. -/
theorem C1_fail_closed_unknown_token (db : String → Option UserRecord)
    (token : String) (now later : ℤ) (hdb : db token = none)
    (hseed : token ∉ ["user_business", "user_enterprise", "user_hobbyist",
                      "user_scaling"]) :
    checkLimitFirst db token now = (⟨false, some .user_not_found, some 0⟩, none) ∧
    checkLimitOpt none later = (⟨false, some .user_not_found, some 0⟩, none) := by
  have h1 : token ≠ "user_business" := fun h => hseed (by simp [h])
  have h2 : token ≠ "user_enterprise" := fun h => hseed (by simp [h])
  have h3 : token ≠ "user_hobbyist" := fun h => hseed (by simp [h])
  have h4 : token ≠ "user_scaling" := fun h => hseed (by simp [h])
  have hpm : planMap token = none := by
    unfold planMap
    rw [if_neg h1, if_neg h2, if_neg h3, if_neg h4]
  have hload : loadState db token now = none := by
    unfold loadState
    rw [hdb, hpm]
    split
    · rename_i r heq
      exact Option.noConfusion heq
    · split <;> rfl
  refine ⟨?_, rfl⟩
  unfold checkLimitFirst
  rw [hload]
  rfl

/-- Witness for the amended C1 at a concrete unknown token. -/
theorem C1_fail_closed_unknown_token_witness :
    ((fun _ : String => (none : Option UserRecord)) "alice" = none) ∧
    ("alice" ∉ ["user_business", "user_enterprise", "user_hobbyist",
                "user_scaling"]) ∧
    checkLimitFirst (fun _ => none) "alice" 1706745600000 =
      (⟨false, some .user_not_found, some 0⟩, none) :=
  ⟨rfl, by decide,
    (C1_fail_closed_unknown_token (fun _ => none) "alice" 1706745600000 0 rfl
      (by decide)).1⟩

/-! ## C3 -/

/-- After a monthly rollover the quota check cannot deny: no plan has a
zero monthly cap. -/
theorem capReached_zero (p : PlanType) :
    capReached (PLANS p).requestsPerMonth 0 = false := by
  cases p <;> rfl

/-- C3: when the stored reset timestamp falls in a different calendar
(month, year) than now, `checkLimit` zeroes the month counter and stamps
the reset time to now — the counter afterwards is 0 if the call was then
denied (for instance by the token bucket) and 1 if this very call was
admitted; and the comparison is by calendar month and year, not elapsed
time: two timestamps two seconds apart straddling a month boundary do roll
over, while two timestamps 28 days apart inside one month do not. -/
theorem C3_monthly_rollover :
    (∀ (s : SessionState) (now : ℤ),
        isNewMonth s.record.month_reset_at now = true →
        (checkLimit s now).2.record.month_reset_at = now ∧
        (checkLimit s now).2.record.current_month_requests =
          (if (checkLimit s now).1.allowed then 1 else 0)) ∧
    isNewMonth 1706745599000 1706745601000 = true ∧
    isNewMonth 1709251200000 1711670400000 = false := by
  refine ⟨fun s now h => ?_, by decide, by decide⟩
  have hroll : rolloverStep s now =
      { s with record := { s.record with current_month_requests := 0,
                                         month_reset_at := now },
               dirty := true } := by
    unfold rolloverStep
    rw [if_pos h]
  have hcap : capReached (PLANS s.record.plan).requestsPerMonth
      (rolloverStep s now).record.current_month_requests = false := by
    rw [hroll]
    exact capReached_zero s.record.plan
  unfold checkLimit afterRefill
  rw [hcap]
  simp only [Bool.false_eq_true, if_false]
  split
  all_goals refine ⟨?_, ?_⟩ <;> (rw [refillTokens_record, hroll]; try rfl)

/-- Witness for C3 across the January→February 2024 boundary. -/
theorem C3_monthly_rollover_witness :
    isNewMonth 1706745599000 1706745601000 = true ∧
    (checkLimit ⟨some 10, 1706745601000,
        ⟨"tok", .hobbyist, 0, 55, 1706745599000, "addr"⟩, false⟩
      1706745601000).2.record.month_reset_at = 1706745601000 := by
  refine ⟨by decide, ?_⟩
  exact (C3_monthly_rollover.1
    ⟨some 10, 1706745601000, ⟨"tok", .hobbyist, 0, 55, 1706745599000, "addr"⟩,
      false⟩ 1706745601000 (by decide)).1

/-! ## C8 -/

/-- `checkLimit` never changes the plan of the session record. -/
theorem checkLimit_plan (s : SessionState) (now : ℤ) :
    (checkLimit s now).2.record.plan = s.record.plan := by
  have hr : (rolloverStep s now).record.plan = s.record.plan := by
    unfold rolloverStep
    split <;> rfl
  unfold checkLimit
  split
  · exact hr
  · split
    · unfold afterRefill
      rw [refillTokens_record]
      exact hr
    · show (afterRefill s now).record.plan = s.record.plan
      unfold afterRefill
      rw [refillTokens_record]
      exact hr

/-- The rollover never changes the token level. -/
theorem rolloverStep_tokens (s : SessionState) (now : ℤ) :
    (rolloverStep s now).tokens = s.tokens := by
  unfold rolloverStep
  split <;> rfl

/-- Refilling at rate `R` preserves the bucket bounds `[0, R * 1.5]`. -/
theorem refillTokens_bounds (s1 : SessionState) (now : ℤ) (R : ℚ) (hR : 0 ≤ R)
    (q : ℚ) (hq : s1.tokens = some q) (h0 : 0 ≤ q) (h1 : q ≤ R * (3 / 2)) :
    ∃ q2 : ℚ, (refillTokens s1 (some R) now).tokens = some q2 ∧
      0 ≤ q2 ∧ q2 ≤ R * (3 / 2) := by
  unfold refillTokens
  split
  · exact ⟨q, hq, h0, h1⟩
  · rename_i hpos
    rw [hq]
    refine ⟨_, rfl, ?_, min_le_left _ _⟩
    have he : (0 : ℚ) < ((now - s1.lastRefill : ℤ) : ℚ) / 1000 :=
      lt_of_not_le hpos
    refine le_min (by positivity) ?_
    have : (0 : ℚ) ≤ ((now - s1.lastRefill : ℤ) : ℚ) / 1000 * R :=
      mul_nonneg he.le hR
    linarith

/-- One `checkLimit` call preserves the bucket bounds `[0, R * 1.5]` for a
plan with finite rate `R`. -/
theorem checkLimit_tokens_inv (pt : PlanType) (R : ℚ) (hR : 0 ≤ R)
    (hrps : (PLANS pt).requestsPerSecond = some R)
    (s : SessionState) (now : ℤ) (hplan : s.record.plan = pt)
    (q : ℚ) (hq : s.tokens = some q) (h0 : 0 ≤ q) (h1 : q ≤ R * (3 / 2)) :
    ∃ q2 : ℚ, (checkLimit s now).2.tokens = some q2 ∧
      0 ≤ q2 ∧ q2 ≤ R * (3 / 2) := by
  have hrtok : (rolloverStep s now).tokens = some q := by
    rw [rolloverStep_tokens]
    exact hq
  obtain ⟨q2, hq2, h02, h12⟩ :=
    refillTokens_bounds (rolloverStep s now) now R hR q hrtok h0 h1
  unfold checkLimit afterRefill
  rw [hplan, hrps]
  split
  · exact ⟨q, hrtok, h0, h1⟩
  · split
    · exact ⟨q2, hq2, h02, h12⟩
    · rename_i hguard
      rw [hq2] at hguard
      have hge : (1 : ℚ) ≤ q2 := by
        by_contra hcon
        exact hguard (by simp [QI.lt1]; linarith)
      refine ⟨q2 - 1, ?_, by linarith, by linarith⟩
      show QI.sub1 (refillTokens (rolloverStep s now) (some R) now).tokens =
        some (q2 - 1)
      rw [hq2]
      rfl

/-- C8: for a plan with finite sustained rate `R ≥ 0`, the token-bucket
level stays within `[0, 1.5 * R]` across every sequence of `checkLimit`
calls; the refill adds `elapsed * R` tokens capped at `1.5 * R` and stamps
the last-refill time whenever `elapsed > 0`; and an admitted call consumes
exactly one token from a refilled level of at least 1. -/
theorem C8_bucket_invariant (pt : PlanType) (R : ℚ) (hR : 0 ≤ R)
    (hrps : (PLANS pt).requestsPerSecond = some R) :
    (∀ (s : SessionState) (ts : List ℤ) (q : ℚ),
        s.record.plan = pt → s.tokens = some q → 0 ≤ q → q ≤ R * (3 / 2) →
        ∃ q2 : ℚ, (stepTimes s ts).tokens = some q2 ∧
          0 ≤ q2 ∧ q2 ≤ R * (3 / 2)) ∧
    (∀ (s : SessionState) (now : ℤ) (q : ℚ), s.tokens = some q →
        0 < ((now - s.lastRefill : ℤ) : ℚ) / 1000 →
        (refillTokens s (some R) now).lastRefill = now ∧
        (refillTokens s (some R) now).tokens =
          some (min (R * (3 / 2))
            (q + ((now - s.lastRefill : ℤ) : ℚ) / 1000 * R))) ∧
    (∀ (s : SessionState) (now : ℤ), (checkLimit s now).1.allowed = true →
        QI.lt1 (afterRefill s now).tokens = false ∧
        (checkLimit s now).2.tokens = QI.sub1 (afterRefill s now).tokens) := by
  refine ⟨fun s ts => ?_, fun s now q hq hpos => ?_, fun s now hallow => ?_⟩
  · induction ts generalizing s with
    | nil => exact fun q hplan hq h0 h1 => ⟨q, hq, h0, h1⟩
    | cons t ts ih =>
      intro q hplan hq h0 h1
      obtain ⟨q2, hq2, h02, h12⟩ :=
        checkLimit_tokens_inv pt R hR hrps s t hplan q hq h0 h1
      exact ih ((checkLimit s t).2) q2
        ((checkLimit_plan s t).trans hplan) hq2 h02 h12
  · unfold refillTokens
    rw [if_neg (not_le.mpr hpos), hq]
    exact ⟨rfl, rfl⟩
  · unfold checkLimit at hallow ⊢
    split at hallow
    · simp at hallow
    · split at hallow
      · simp at hallow
      · rename_i hcap hlt
        rw [if_neg hcap, if_neg hlt]
        exact ⟨eq_false_of_ne_true hlt, rfl⟩

/-- Witness for C8 on the hobbyist plan across two calls. -/
theorem C8_bucket_invariant_witness :
    (PLANS PlanType.hobbyist).requestsPerSecond = some 10 ∧
    ∃ q2 : ℚ,
      (stepTimes ⟨some 10, 0, ⟨"tok", .hobbyist, 0, 0, 0, "addr"⟩, false⟩
        [500, 1000]).tokens = some q2 ∧ 0 ≤ q2 ∧ q2 ≤ 10 * (3 / 2) :=
  ⟨rfl,
    (C8_bucket_invariant PlanType.hobbyist 10 (by norm_num) rfl).1
      ⟨some 10, 0, ⟨"tok", .hobbyist, 0, 0, 0, "addr"⟩, false⟩ [500, 1000] 10
      rfl rfl (by norm_num) (by norm_num)⟩

/-! ## C2 -/

/-- A session as `loadState` builds it from a stored record with a zero
month counter: full bucket (`tokens = rps`), last refill stamped at load
time. -/
def freshSession (tok : String) (pt : PlanType) (ca m0 : ℤ) (addr : String)
    (R : ℚ) (t0 : ℤ) : SessionState :=
  ⟨some R, t0, ⟨tok, pt, ca, 0, m0, addr⟩, false⟩

/-- `capReached` is monotone: below a non-reached count the cap is not
reached either. -/
theorem capReached_mono (cap : Option ℕ) (m n : ℕ)
    (h : capReached cap n = false) (hle : m ≤ n) : capReached cap m = false := by
  cases cap with
  | none => rfl
  | some c =>
    simp [capReached] at h ⊢
    omega

/-- `refillTokens` on a literal session with a positive elapsed time and a
finite rate. -/
theorem refillTokens_lit_pos (tk : ℚ) (t0 d : ℤ) (r : UserRecord) (db : Bool)
    (R : ℚ) (hd : 0 < d) :
    refillTokens ⟨some tk, t0, r, db⟩ (some R) (t0 + d) =
      ⟨some (min (R * (3 / 2)) (tk + (d : ℚ) / 1000 * R)), t0 + d, r, db⟩ := by
  have he : ((t0 + d - t0 : ℤ) : ℚ) / 1000 = (d : ℚ) / 1000 := by
    push_cast
    ring
  have hpos : ¬ ((t0 + d - t0 : ℤ) : ℚ) / 1000 ≤ 0 := by
    rw [he]
    exact not_le.mpr (div_pos (by exact_mod_cast hd) (by norm_num))
  unfold refillTokens
  rw [if_neg hpos]
  show (⟨some (min (R * (3 / 2))
      (tk + ((t0 + d - t0 : ℤ) : ℚ) / 1000 * R)), t0 + d, r, db⟩
    : SessionState) = _
  rw [he]

/-- One admitted burst step: at the very instant of a fresh load, a session
with `R - n ≥ 1` tokens and counter `n` admits the call, consumes one
token and increments the counter. -/
theorem burst_step_allowed (pt : PlanType) (R : ℕ)
    (hrps : (PLANS pt).requestsPerSecond = some (R : ℚ))
    (hcap : capReached (PLANS pt).requestsPerMonth (R + 1) = false)
    (tok addr : String) (ca m0 t0 : ℤ)
    (hm0 : isNewMonth m0 t0 = false) (n : ℕ) (hn : n + 1 ≤ R) :
    checkLimit ⟨some ((R : ℚ) - n), t0, ⟨tok, pt, ca, n, m0, addr⟩,
        decide (0 < n)⟩ t0 =
      (⟨true, none, capSub (PLANS pt).requestsPerMonth (n + 1)⟩,
       ⟨some ((R : ℚ) - n - 1), t0, ⟨tok, pt, ca, n + 1, m0, addr⟩, true⟩) := by
  have hc := checkLimit_eval_allowed
    ⟨some ((R : ℚ) - n), t0, ⟨tok, pt, ca, n, m0, addr⟩, decide (0 < n)⟩ t0
    (PLANS pt).requestsPerMonth (some (R : ℚ))
    ⟨some ((R : ℚ) - n), t0, ⟨tok, pt, ca, n, m0, addr⟩, decide (0 < n)⟩
    rfl hrps hm0 (capReached_mono _ n (R + 1) hcap (by omega))
    (refillTokens_lit_self _ _ _ _ _) ?hlt
  case hlt =>
    show decide ((R : ℚ) - n < 1) = false
    have hcast : (n : ℚ) + 1 ≤ (R : ℚ) := by exact_mod_cast hn
    simp only [decide_eq_false_iff_not, not_lt]
    linarith
  rw [hc]
  rfl

/-- The session after `i ≤ R` instantaneous admitted calls from a fresh
load: `R - i` tokens, counter `i`. -/
theorem runN_burst (pt : PlanType) (R : ℕ)
    (hrps : (PLANS pt).requestsPerSecond = some (R : ℚ))
    (hcap : capReached (PLANS pt).requestsPerMonth (R + 1) = false)
    (tok addr : String) (ca m0 t0 : ℤ)
    (hm0 : isNewMonth m0 t0 = false) (i : ℕ) (hi : i ≤ R) :
    runN (freshSession tok pt ca m0 addr (R : ℚ) t0) t0 i =
      ⟨some ((R : ℚ) - i), t0, ⟨tok, pt, ca, i, m0, addr⟩, decide (0 < i)⟩ := by
  induction i with
  | zero => simp [freshSession, runN]
  | succ n ih =>
    have hn : n ≤ R := Nat.le_of_succ_le hi
    rw [runN, ih hn,
      burst_step_allowed pt R hrps hcap tok addr ca m0 t0 hm0 n hi]
    rw [show ((R : ℚ) - n - 1) = (R : ℚ) - ((n : ℚ) + 1) from by ring]
    simp only [SessionState.mk.injEq, UserRecord.mk.injEq, Nat.cast_add,
      Nat.cast_one]
    try simp

/-- C2: from a freshly loaded session on a plan with finite sustained rate
`R ≥ 1` (the bucket starts at `R` tokens, the initial burst ceiling),
`R` instantaneous `checkLimit` calls are all admitted, the `(R+1)`-th is
denied with `rate_limit`; and after waiting `d` milliseconds with
`1 ≤ d·R/1000 < 2` — at least `1/R` seconds, and short enough that only a
single token refills — exactly one further call is admitted: the next call
succeeds and the one after it at the same instant is denied with
`rate_limit` again. -/
theorem C2_token_bucket_conservation (pt : PlanType) (R : ℕ) (hR1 : 1 ≤ R)
    (hrps : (PLANS pt).requestsPerSecond = some (R : ℚ))
    (hcap : capReached (PLANS pt).requestsPerMonth (R + 1) = false)
    (tok addr : String) (ca m0 t0 d : ℤ)
    (hm0 : isNewMonth m0 t0 = false) (hm1 : isNewMonth m0 (t0 + d) = false)
    (hd : 0 < d)
    (h1 : 1 ≤ (d : ℚ) / 1000 * R) (h2 : (d : ℚ) / 1000 * R < 2) :
    loadState (fun _ => some ⟨tok, pt, ca, 0, m0, addr⟩) tok t0 =
      some (freshSession tok pt ca m0 addr (R : ℚ) t0) ∧
    (∀ i, i < R →
      (checkLimit (runN (freshSession tok pt ca m0 addr (R : ℚ) t0) t0 i)
        t0).1.allowed = true) ∧
    (checkLimit (runN (freshSession tok pt ca m0 addr (R : ℚ) t0) t0 R)
        t0).1 = ⟨false, some .rate_limit, some 0⟩ ∧
    (checkLimit (runN (freshSession tok pt ca m0 addr (R : ℚ) t0) t0 (R + 1))
        (t0 + d)).1.allowed = true ∧
    (checkLimit (checkLimit
        (runN (freshSession tok pt ca m0 addr (R : ℚ) t0) t0 (R + 1))
        (t0 + d)).2 (t0 + d)).1 = ⟨false, some .rate_limit, some 0⟩ := by
  have hR1Q : (1 : ℚ) ≤ (R : ℚ) := by exact_mod_cast hR1
  -- the denied state after the R admitted calls
  have hburstR := runN_burst pt R hrps hcap tok addr ca m0 t0 hm0 R le_rfl
  -- the (R+1)-th call at t0 is denied and leaves the state unchanged
  have hrate : checkLimit
      (⟨some ((R : ℚ) - R), t0, ⟨tok, pt, ca, R, m0, addr⟩,
        decide (0 < R)⟩ : SessionState) t0 =
      (⟨false, some .rate_limit, some 0⟩,
       ⟨some ((R : ℚ) - R), t0, ⟨tok, pt, ca, R, m0, addr⟩,
        decide (0 < R)⟩) := by
    refine checkLimit_eval_rate
      ⟨some ((R : ℚ) - R), t0, ⟨tok, pt, ca, R, m0, addr⟩, decide (0 < R)⟩ t0
      (PLANS pt).requestsPerMonth (some (R : ℚ)) _
      rfl hrps hm0 (capReached_mono _ R (R + 1) hcap (by omega))
      (refillTokens_lit_self _ _ _ _ _) ?_
    show decide ((R : ℚ) - R < 1) = true
    simp
  -- the refilled level after waiting d milliseconds
  have hwaitTok : (1 : ℚ) ≤
      min ((R : ℚ) * (3 / 2)) ((R : ℚ) - R + (d : ℚ) / 1000 * R) := by
    refine le_min (by nlinarith) (by linarith)
  have hwaitTok2 :
      min ((R : ℚ) * (3 / 2)) ((R : ℚ) - R + (d : ℚ) / 1000 * R) < 2 := by
    refine lt_of_le_of_lt
      (min_le_right ((R : ℚ) * (3 / 2)) ((R : ℚ) - R + (d : ℚ) / 1000 * R))
      (by linarith)
  -- the call after the wait is admitted
  have hwait : checkLimit
      (⟨some ((R : ℚ) - R), t0, ⟨tok, pt, ca, R, m0, addr⟩,
        decide (0 < R)⟩ : SessionState) (t0 + d) =
      (⟨true, none, capSub (PLANS pt).requestsPerMonth (R + 1)⟩,
       ⟨QI.sub1 (some (min ((R : ℚ) * (3 / 2))
            ((R : ℚ) - R + (d : ℚ) / 1000 * R))), t0 + d,
        ⟨tok, pt, ca, R + 1, m0, addr⟩, true⟩) := by
    have hc := checkLimit_eval_allowed
      ⟨some ((R : ℚ) - R), t0, ⟨tok, pt, ca, R, m0, addr⟩, decide (0 < R)⟩
      (t0 + d) (PLANS pt).requestsPerMonth (some (R : ℚ))
      ⟨some (min ((R : ℚ) * (3 / 2)) ((R : ℚ) - R + (d : ℚ) / 1000 * R)),
        t0 + d, ⟨tok, pt, ca, R, m0, addr⟩, decide (0 < R)⟩
      rfl hrps hm1 (capReached_mono _ R (R + 1) hcap (by omega))
      (refillTokens_lit_pos _ _ _ _ _ _ hd)
      (by
        show decide
          (min ((R : ℚ) * (3 / 2)) ((R : ℚ) - R + (d : ℚ) / 1000 * R) < 1)
            = false
        simp only [decide_eq_false_iff_not, not_lt]
        exact hwaitTok)
    rw [hc]
  -- the second call after the wait is denied again
  have hwait2 : checkLimit
      (⟨QI.sub1 (some (min ((R : ℚ) * (3 / 2))
            ((R : ℚ) - R + (d : ℚ) / 1000 * R))), t0 + d,
        ⟨tok, pt, ca, R + 1, m0, addr⟩, true⟩ : SessionState) (t0 + d) =
      (⟨false, some .rate_limit, some 0⟩,
       ⟨QI.sub1 (some (min ((R : ℚ) * (3 / 2))
            ((R : ℚ) - R + (d : ℚ) / 1000 * R))), t0 + d,
        ⟨tok, pt, ca, R + 1, m0, addr⟩, true⟩) := by
    refine checkLimit_eval_rate
      ⟨QI.sub1 (some (min ((R : ℚ) * (3 / 2))
          ((R : ℚ) - R + (d : ℚ) / 1000 * R))), t0 + d,
        ⟨tok, pt, ca, R + 1, m0, addr⟩, true⟩ (t0 + d)
      (PLANS pt).requestsPerMonth (some (R : ℚ)) _
      rfl hrps hm1 hcap (refillTokens_lit_self _ _ _ _ _) ?_
    show decide
      (min ((R : ℚ) * (3 / 2)) ((R : ℚ) - R + (d : ℚ) / 1000 * R) - 1 < 1)
        = true
    simp only [decide_eq_true_eq]
    linarith
  refine ⟨?_, ?_, ?_, ?_, ?_⟩
  · unfold freshSession
    show some (⟨(PLANS pt).requestsPerSecond, t0,
      ⟨tok, pt, ca, 0, m0, addr⟩, false⟩ : SessionState) = _
    rw [hrps]
  · intro i hi
    rw [runN_burst pt R hrps hcap tok addr ca m0 t0 hm0 i (le_of_lt hi),
      burst_step_allowed pt R hrps hcap tok addr ca m0 t0 hm0 i hi]
  · rw [hburstR, hrate]
  · rw [show runN (freshSession tok pt ca m0 addr (R : ℚ) t0) t0 (R + 1) =
        (checkLimit (runN (freshSession tok pt ca m0 addr (R : ℚ) t0) t0 R)
          t0).2 from rfl, hburstR, hrate]
    rw [show ((⟨false, some .rate_limit, some 0⟩,
        ⟨some ((R : ℚ) - R), t0, ⟨tok, pt, ca, R, m0, addr⟩, decide (0 < R)⟩)
          : RateLimitResult × SessionState).2 =
        ⟨some ((R : ℚ) - R), t0, ⟨tok, pt, ca, R, m0, addr⟩, decide (0 < R)⟩
        from rfl, hwait]
  · rw [show runN (freshSession tok pt ca m0 addr (R : ℚ) t0) t0 (R + 1) =
        (checkLimit (runN (freshSession tok pt ca m0 addr (R : ℚ) t0) t0 R)
          t0).2 from rfl, hburstR, hrate]
    rw [show ((⟨false, some .rate_limit, some 0⟩,
        ⟨some ((R : ℚ) - R), t0, ⟨tok, pt, ca, R, m0, addr⟩, decide (0 < R)⟩)
          : RateLimitResult × SessionState).2 =
        ⟨some ((R : ℚ) - R), t0, ⟨tok, pt, ca, R, m0, addr⟩, decide (0 < R)⟩
        from rfl, hwait]
    rw [show ((⟨true, none, capSub (PLANS pt).requestsPerMonth (R + 1)⟩,
        ⟨QI.sub1 (some (min ((R : ℚ) * (3 / 2))
            ((R : ℚ) - R + (d : ℚ) / 1000 * R))), t0 + d,
          ⟨tok, pt, ca, R + 1, m0, addr⟩, true⟩)
          : RateLimitResult × SessionState).2 =
        ⟨QI.sub1 (some (min ((R : ℚ) * (3 / 2))
            ((R : ℚ) - R + (d : ℚ) / 1000 * R))), t0 + d,
          ⟨tok, pt, ca, R + 1, m0, addr⟩, true⟩ from rfl, hwait2]

/-- Witness for C2 on the hobbyist plan (`R = 10`): 10 instantaneous calls
drain the bucket, the 11th is denied, and waiting 150 ms refills 1.5
tokens. -/
theorem C2_token_bucket_conservation_witness :
    (1 ≤ 10) ∧
    (checkLimit (runN (freshSession "tok" .hobbyist 0 0 "addr"
        ((10 : ℕ) : ℚ) 0) 0 10) 0).1 = ⟨false, some .rate_limit, some 0⟩ ∧
    (checkLimit (runN (freshSession "tok" .hobbyist 0 0 "addr"
        ((10 : ℕ) : ℚ) 0) 0 11) 150).1.allowed = true := by
  have h := C2_token_bucket_conservation .hobbyist 10 (by decide)
    (by simp [PLANS]) (by decide) "tok" "addr" 0 0 0 150 (by decide)
    (by decide) (by decide) (by norm_num) (by norm_num)
  exact ⟨by decide, h.2.2.1, h.2.2.2.1⟩

/-! ## C9 -/

/-- The trace of `n` round-robin selections is the node list indexed by the
counter values reduced modulo the pool size. -/
theorem chooseRun_eq_map (nodes : List String) (rr n : ℕ) :
    chooseRun nodes rr n =
      (List.range n).map (fun i => nodes.getD ((rr + i) % nodes.length) "") := by
  induction n generalizing rr with
  | zero => rfl
  | succ m ih =>
    rw [chooseRun,
      show (chooseNode nodes rr).1 = nodes.getD (rr % nodes.length) ""
        from rfl,
      show (chooseNode nodes rr).2 = rr + 1 from rfl,
      ih (rr + 1), List.range_succ_eq_map]
    simp only [List.map_cons, List.map_map]
    refine congrArg₂ List.cons (by rw [Nat.add_zero]) ?_
    refine List.map_congr_left fun i _ => ?_
    simp only [Function.comp_apply]
    congr 1
    congr 1
    omega

/-- A window of `K` consecutive counter values hits each residue class the
same number of times wherever it starts. -/
theorem window_count_shift (K j c : ℕ) :
    ((List.range K).map (fun i => (c + 1 + i) % K)).count j =
      ((List.range K).map (fun i => (c + i) % K)).count j := by
  cases K with
  | zero => rfl
  | succ k =>
    have hf : (List.range (k + 1)).map (fun i => (c + i) % (k + 1)) =
        c % (k + 1) ::
          (List.range k).map (fun i => (c + 1 + i) % (k + 1)) := by
      rw [List.range_succ_eq_map]
      simp only [List.map_cons, List.map_map, Nat.add_zero]
      refine congrArg₂ List.cons rfl (List.map_congr_left fun i _ => ?_)
      simp only [Function.comp_apply]
      congr 1
      omega
    have hg : (List.range (k + 1)).map (fun i => (c + 1 + i) % (k + 1)) =
        ((List.range k).map (fun i => (c + 1 + i) % (k + 1))) ++
          [c % (k + 1)] := by
      rw [List.range_succ]
      simp only [List.map_append, List.map_cons, List.map_nil]
      refine congrArg₂ _ rfl ?_
      rw [show c + 1 + k = c + (k + 1) from by omega, Nat.add_mod_right]
    rw [hf, hg]
    simp [List.count_append, List.count_cons, Nat.add_comm]

/-- A window of `K` consecutive counter values hits each residue `j < K`
exactly once. -/
theorem window_count_one (K j c : ℕ) (hj : j < K) :
    ((List.range K).map (fun i => (c + i) % K)).count j = 1 := by
  induction c with
  | zero =>
    have hmap : (List.range K).map (fun i => (0 + i) % K) = List.range K := by
      conv_rhs => rw [← List.map_id (List.range K)]
      refine List.map_congr_left fun i hi => ?_
      rw [Nat.zero_add, Nat.mod_eq_of_lt (List.mem_range.mp hi)]
      rfl
    rw [hmap]
    exact List.count_eq_one_of_mem (List.nodup_range K) (List.mem_range.mpr hj)
  | succ c ih =>
    rw [window_count_shift K j c]
    exact ih

/-- `k` full cycles of `K` consecutive counter values hit each residue
`j < K` exactly `k` times. -/
theorem cycles_count (K j c k : ℕ) (hj : j < K) :
    ((List.range (k * K)).map (fun i => (c + i) % K)).count j = k := by
  induction k with
  | zero => simp
  | succ m ih =>
    rw [Nat.succ_mul, List.range_add, List.map_append, List.count_append,
      ih, List.map_map]
    have : ((List.range K).map ((fun i => (c + i) % K) ∘ (m * K + ·))).count j
        = 1 := by
      have hcong : (List.range K).map ((fun i => (c + i) % K) ∘ (m * K + ·)) =
          (List.range K).map (fun i => (c + i) % K) := by
        refine List.map_congr_left fun i _ => ?_
        simp only [Function.comp_apply]
        rw [show c + (m * K + i) = c + i + m * K from by omega,
          Nat.add_mul_mod_self_right]
      rw [hcong]
      exact window_count_one K j c hj
    rw [this]

/-- C9: within one running instance, over `M = k * K` consecutive
`chooseNode` selections on a duplicate-free pool of size `K`, every node of
the pool is selected exactly `M / K = k` times; the selection uses the
shared counter, incremented on every call and reduced modulo the pool
size. -/
theorem C9_round_robin_fairness (nodes : List String) (c0 k : ℕ)
    (node : String) (hnd : nodes.Nodup) (hmem : node ∈ nodes) :
    (chooseRun nodes c0 (k * nodes.length)).count node = k ∧
    (∀ rr, chooseNode nodes rr = (nodes.getD (rr % nodes.length) "", rr + 1)) := by
  refine ⟨?_, fun rr => rfl⟩
  obtain ⟨⟨j, hj⟩, hget⟩ := List.mem_iff_get.mp hmem
  have hK : 0 < nodes.length := lt_of_le_of_lt (Nat.zero_le j) hj
  rw [chooseRun_eq_map, List.count_eq_countP, List.countP_map]
  have hcong : ∀ i ∈ List.range (k * nodes.length),
      ((nodes.getD ((c0 + i) % nodes.length) "" == node) : Bool) =
        (((c0 + i) % nodes.length == j) : Bool) := by
    intro i _
    have hlt : (c0 + i) % nodes.length < nodes.length := Nat.mod_lt _ hK
    rw [List.getD_eq_getElem _ _ hlt]
    by_cases hij : (c0 + i) % nodes.length = j
    · have hx : nodes[(c0 + i) % nodes.length] = node := by
        rw [show nodes[(c0 + i) % nodes.length] =
          nodes.get ⟨(c0 + i) % nodes.length, hlt⟩ from rfl, ← hget]
        congr 1
        simp only [Fin.mk.injEq]
        exact hij
      simp [hx, hij]
      exact hget
    · have hneq : nodes[(c0 + i) % nodes.length] ≠ node := by
        rw [show nodes[(c0 + i) % nodes.length] =
          nodes.get ⟨(c0 + i) % nodes.length, hlt⟩ from rfl, ← hget]
        intro hcontra
        exact hij (congrArg Fin.val ((List.Nodup.get_inj_iff hnd).mp hcontra))
      simp [hneq, hij]
  rw [List.countP_congr (fun x hx => by
    simp only [Function.comp_apply]
    rw [hcong x hx])]
  have hcycles := cycles_count nodes.length j c0 k hj
  rw [List.count_eq_countP, List.countP_map] at hcycles
  exact hcycles

/-- Witness for C9: pool of 3 distinct nodes, counter starting at 5, 6
selections — each node chosen exactly twice. -/
theorem C9_round_robin_fairness_witness :
    (["a", "b", "c"] : List String).Nodup ∧ ("b" ∈ ["a", "b", "c"]) ∧
    (chooseRun ["a", "b", "c"] 5 (2 * 3)).count "b" = 2 :=
  ⟨by decide, by decide,
    (C9_round_robin_fairness ["a", "b", "c"] 5 2 "b" (by decide) (by decide)).1⟩

/-! ## C6 -/

/-- A SHA-256 word splits into four bytes. -/
theorem word4_length (w : ℕ) : (word4 w).length = 4 := rfl

/-- Every digest byte extracted from a word is below 256. -/
theorem word4_lt (w : ℕ) : ∀ x ∈ word4 w, x < 256 := by
  intro x hx
  simp only [word4, List.mem_cons, List.not_mem_nil, or_false] at hx
  rcases hx with h | h | h | h <;> subst h <;> exact Nat.mod_lt _ (by norm_num)

/-- A SHA-256 digest has exactly 32 bytes. -/
theorem sha256_length (msg : List ℕ) : (sha256 msg).length = 32 := by
  unfold sha256
  obtain ⟨a, b, c, d, e, f, g, h⟩ :=
    (chunk64 (shaPad msg)).foldl shaCompress shaInit
  simp [word4]

/-- Every SHA-256 digest byte is below 256. -/
theorem sha256_lt (msg : List ℕ) : ∀ x ∈ sha256 msg, x < 256 := by
  intro x hx
  unfold sha256 at hx
  set st := (chunk64 (shaPad msg)).foldl shaCompress shaInit with hst
  obtain ⟨a, b, c, d, e, f, g, h8⟩ := st
  simp only [List.mem_append] at hx
  rcases hx with (((((((hm | hm) | hm) | hm) | hm) | hm) | hm) | hm) <;>
    exact word4_lt _ _ hm

/-- The hex characters of a digest, two per byte. -/
theorem flatten_byteHex_length (l : List ℕ) :
    ((l.map byteHex).flatten).length = 2 * l.length := by
  induction l with
  | nil => rfl
  | cons a tl ih =>
    simp only [List.map_cons, List.flatten_cons, List.length_append, ih,
      List.length_cons, byteHex]
    simp
    ring

/-- The hex digest rendered by `calculateCacheKey` always has 64
characters. -/
theorem sha256Hex_length (s : String) : (sha256Hex s).data.length = 64 := by
  show (((sha256 (utf8Bytes s)).map byteHex).flatten).length = 64
  rw [flatten_byteHex_length, sha256_length]

/-- The cache key depends only on the method and the normalized params:
request `id` and `jsonrpc` version are dropped, and repeated calls with
identical inputs produce the identical key. -/
theorem key_normalized (chain : String) (b1 b2 : RpcBody)
    (hm : b1.method = b2.method)
    (hp : normParams b1.params = normParams b2.params) :
    calculateCacheKey chain b1 = calculateCacheKey chain b2 := by
  unfold calculateCacheKey serializeBody
  rw [hm, hp]

/-- Different chains never collide: the chain is a namespace component of
the key and the trailing digest always has 64 characters. -/
theorem key_chain_sep (c1 c2 : String) (b1 b2 : RpcBody) (hne : c1 ≠ c2) :
    calculateCacheKey c1 b1 ≠ calculateCacheKey c2 b2 := by
  intro h
  apply hne
  unfold calculateCacheKey at h
  have hd := congrArg String.data h
  simp only [String.data_append] at hd
  have hl := congrArg List.length hd
  simp only [List.length_append, sha256Hex_length] at hl
  obtain ⟨hpre, -⟩ := List.append_inj hd (by
    simp only [List.length_append, sha256Hex_length] at hl ⊢
    omega)
  have h2 := List.append_cancel_right hpre
  have h3 := List.append_cancel_left h2
  exact String.ext h3

/-- Two keys on the same chain agree exactly when the hex digests of the
serialized normalized bodies agree: collisions can only come from SHA-256
digest collisions. -/
theorem key_hash_eq (chain : String) (b1 b2 : RpcBody)
    (h : calculateCacheKey chain b1 = calculateCacheKey chain b2) :
    sha256Hex (serializeBody b1) = sha256Hex (serializeBody b2) := by
  unfold calculateCacheKey at h
  have hd := congrArg String.data h
  simp only [String.data_append] at hd
  exact String.ext (List.append_inj hd rfl).2

/-- C6 (amended): cache-key derivation is deterministic and normalizing —
the key is a function of `(chain, method, normalized params)` alone, so
request-id and protocol-version differences are invisible; the chain
namespace prefix means identical calls on different chains never collide;
and on one chain two keys agree exactly when the SHA-256 hex digests of
the canonical serializations agree, so distinctness for different
method/params holds only up to SHA-256 collision resistance. -/
theorem C6_key_derivation (chain c1 c2 : String) (b1 b2 : RpcBody) :
    (b1.method = b2.method → normParams b1.params = normParams b2.params →
      calculateCacheKey chain b1 = calculateCacheKey chain b2) ∧
    (c1 ≠ c2 → calculateCacheKey c1 b1 ≠ calculateCacheKey c2 b2) ∧
    (calculateCacheKey chain b1 = calculateCacheKey chain b2 →
      sha256Hex (serializeBody b1) = sha256Hex (serializeBody b2)) :=
  ⟨key_normalized chain b1 b2, key_chain_sep c1 c2 b1 b2,
    key_hash_eq chain b1 b2⟩

/-- Witness for C6: a body with an id and version field keys identically to
the bare body, and the same call on `eth` and `bsc` keys differently. -/
theorem C6_key_derivation_witness :
    (("eth" : String) ≠ "bsc") ∧
    calculateCacheKey "eth" ⟨some (.num 7), some "2.0", "eth_chainId", none⟩ =
      calculateCacheKey "eth" ⟨none, none, "eth_chainId", none⟩ ∧
    calculateCacheKey "eth" ⟨none, none, "eth_chainId", none⟩ ≠
      calculateCacheKey "bsc" ⟨none, none, "eth_chainId", none⟩ :=
  ⟨by decide,
    (C6_key_derivation "eth" "eth" "bsc"
      ⟨some (.num 7), some "2.0", "eth_chainId", none⟩
      ⟨none, none, "eth_chainId", none⟩).1 rfl rfl,
    (C6_key_derivation "eth" "eth" "bsc" ⟨none, none, "eth_chainId", none⟩
      ⟨none, none, "eth_chainId", none⟩).2.1 (by decide)⟩

/-- A request body whose method is `n` repetitions of `a`. -/
def pigeonBody (n : ℕ) : RpcBody :=
  ⟨none, none, String.mk (List.replicate n (Char.ofNat 97)), none⟩

/-- Counterexample to C6 as stated: the key is a fixed-length SHA-256
fingerprint, so by pigeonhole there exist two bodies with different
methods and identical params whose keys on the same chain coincide —
"keys differ whenever the method or any parameter differs" cannot hold. -/
theorem C6_counterexample :
    ∃ b1 b2 : RpcBody, b1.method ≠ b2.method ∧ b1.params = b2.params ∧
      calculateCacheKey "eth" b1 = calculateCacheKey "eth" b2 := by
  obtain ⟨n, m, hnm, hfn⟩ := Finite.exists_ne_map_eq_of_infinite
    (fun n : ℕ => (fun i : Fin 32 =>
      (⟨(sha256 (utf8Bytes (serializeBody (pigeonBody n)))).getD i 0 % 256,
        Nat.mod_lt _ (by norm_num)⟩ : Fin 256)))
  refine ⟨pigeonBody n, pigeonBody m, ?_, rfl, ?_⟩
  · intro h
    apply hnm
    have hlen := congrArg String.length h
    simpa [pigeonBody, String.length] using hlen
  · have hbytes : sha256 (utf8Bytes (serializeBody (pigeonBody n))) =
        sha256 (utf8Bytes (serializeBody (pigeonBody m))) := by
      have hlen1 := sha256_length (utf8Bytes (serializeBody (pigeonBody n)))
      have hlen2 := sha256_length (utf8Bytes (serializeBody (pigeonBody m)))
      refine List.ext_getElem (by rw [hlen1, hlen2]) ?_
      intro i h1 h2
      have hi : i < 32 := by omega
      have hv := congrArg Fin.val (congrFun hfn ⟨i, hi⟩)
      simp only at hv
      rw [List.getD_eq_getElem _ _ h1, List.getD_eq_getElem _ _ h2] at hv
      have hb1 : (sha256 (utf8Bytes (serializeBody (pigeonBody n))))[i] < 256 :=
        sha256_lt _ _ (List.getElem_mem _)
      have hb2 : (sha256 (utf8Bytes (serializeBody (pigeonBody m))))[i] < 256 :=
        sha256_lt _ _ (List.getElem_mem _)
      omega
    unfold calculateCacheKey sha256Hex
    rw [hbytes]

end NullRpc
